import Mathlib

/-!
Verification development for a small employee CRUD service.

The core of the program is a validation layer (pydantic schemas in
app/schemas/model_schema.py), a persistence service
(app/services/employee_service.py) over a relational store
(app/models/employee.py declares the table), and thin HTTP handlers
(app/api/employee_api.py).  We embed these shallowly: the store is a list of
rows plus an autoincrement counter, validation is a function from a raw
payload to a list of field errors, and each service operation is a pure
function from a store to a result together with the updated store.
Timestamps are modelled by an abstract clock value passed to each operation.
-/

namespace EmployeeApp

/-- Employee row, from app/models/employee.py: integer id (primary key,
autoincrement), name, unique email, department, salary (Float, modelled as a
rational), created_at (server default now) and updated_at (server default
now, onupdate now).  Timestamps are abstract clock values. -/
structure Employee where
  id : Nat
  name : String
  email : String
  department : String
  salary : ℚ
  created_at : Nat
  updated_at : Nat
deriving Repr, DecidableEq

/-- Raw create payload as received over HTTP, before schema validation: each
of the four business fields may be present or absent. -/
structure RawEmployeeCreate where
  name : Option String
  email : Option String
  department : Option String
  salary : Option ℚ
deriving Repr, DecidableEq

/-- Validated create payload, from EmployeeCreate in
app/schemas/model_schema.py: all four business fields present. -/
structure EmployeeCreate where
  name : String
  email : String
  department : String
  salary : ℚ
deriving Repr, DecidableEq

/-- Update payload, from EmployeeUpdate in app/schemas/model_schema.py: every
field optional; none means the field was not supplied (model_dump with
exclude_unset omits it). -/
structure EmployeeUpdate where
  name : Option String
  email : Option String
  department : Option String
  salary : Option ℚ
deriving Repr, DecidableEq

/-- The four business fields of the schema. -/
inductive FieldName
  | name
  | email
  | department
  | salary
deriving Repr, DecidableEq

/-- Field-level validation errors produced by the schema layer. -/
inductive FieldError
  | missing (f : FieldName)
  | tooShort (f : FieldName)
  | tooLong (f : FieldName)
  | invalidEmail
  | notGtZero
deriving Repr, DecidableEq

/-- Modelled from the spec: the EmailStr validator is pydantic library code,
not part of this repository.  The spec requires standard email address
syntax and in particular that a string lacking an at-sign is always
rejected.  Modelled as: exactly one at-sign, with a nonempty part on each
side of it. -/
def emailValid (s : String) : Bool :=
  let cs := s.toList
  (cs.count '@' == 1) && (cs.head? != some '@') && (cs.getLast? != some '@')

/-- Length check for name, from Field(min_length 1, max_length 100) on
EmployeeBase.name: character counts, inclusive bounds. -/
def checkNameVal (s : String) : List FieldError :=
  (if s.length < 1 then [FieldError.tooShort FieldName.name] else []) ++
  (if 100 < s.length then [FieldError.tooLong FieldName.name] else [])

/-- Syntax check for email, from EmailStr on EmployeeBase.email. -/
def checkEmailVal (s : String) : List FieldError :=
  if emailValid s then [] else [FieldError.invalidEmail]

/-- Length check for department, from Field(min_length 1, max_length 50) on
EmployeeBase.department. -/
def checkDepartmentVal (s : String) : List FieldError :=
  (if s.length < 1 then [FieldError.tooShort FieldName.department] else []) ++
  (if 50 < s.length then [FieldError.tooLong FieldName.department] else [])

/-- Positivity check for salary, from Field(gt 0) on EmployeeBase.salary. -/
def checkSalaryVal (v : ℚ) : List FieldError :=
  if 0 < v then [] else [FieldError.notGtZero]

/-- Required-field check for create payloads: a missing field is an error of
its own, a present field is checked against its constraint. -/
def checkRequired (f : FieldName) (check : α → List FieldError) :
    Option α → List FieldError
  | none => [FieldError.missing f]
  | some v => check v

/-- Optional-field check for update payloads: an absent field passes, a
supplied field is checked against its constraint. -/
def checkOptional (check : α → List FieldError) : Option α → List FieldError
  | none => []
  | some v => check v

/-- Schema validation of a create payload, from EmployeeCreate: all four
business fields required, each checked against its own constraint, all
violations collected together. -/
def validateCreate (p : RawEmployeeCreate) : List FieldError :=
  checkRequired FieldName.name checkNameVal p.name ++
  checkRequired FieldName.email checkEmailVal p.email ++
  checkRequired FieldName.department checkDepartmentVal p.department ++
  checkRequired FieldName.salary checkSalaryVal p.salary

/-- Schema validation of an update payload, from EmployeeUpdate: every field
optional, only supplied fields checked, all violations collected. -/
def validateUpdate (p : EmployeeUpdate) : List FieldError :=
  checkOptional checkNameVal p.name ++
  checkOptional checkEmailVal p.email ++
  checkOptional checkDepartmentVal p.department ++
  checkOptional checkSalaryVal p.salary

/-- The relational store: the employees table plus the autoincrement counter
for the primary key.  Modelled from the spec and the column declaration
(id Integer primary_key autoincrement): ids are handed out by a
monotonically increasing counter and never reused. -/
structure Store where
  rows : List Employee
  nextId : Nat
deriving Repr, DecidableEq

/-- The empty store. -/
def Store.empty : Store := ⟨[], 1⟩

/-- Lookup by primary key, the SELECT WHERE id clause in get_employee. -/
def Store.findById (s : Store) (id : Nat) : Option Employee :=
  s.rows.find? (fun o => o.id == id)

/-- Whether some row already holds the given email, used to model the unique
constraint on the email column. -/
def Store.hasEmail (s : Store) (email : String) : Bool :=
  s.rows.any (fun o => o.email == email)

/-- Service-level failures: the ValueError raised on a negative salary and
the unique-constraint violation surfaced by the store on commit. -/
inductive ServiceError
  | invalidSalary
  | duplicateEmail
deriving Repr, DecidableEq

/-- The salary guard in create_employee line 19: the condition
(employee_data.salary and employee_data.salary < 0) is guarded by the
truthiness of the value, so a salary of exactly zero skips the check. -/
def createSalaryRejected (v : ℚ) : Bool :=
  (v != 0) && decide (v < 0)

/-- The salary guard in update_employee line 55: rejects only when the field
was supplied and the supplied value is strictly below zero. -/
def updateSalaryRejected (x : Option ℚ) : Bool :=
  match x with
  | some v => decide (v < 0)
  | none => false

/-- EmployeeService.create_employee: the service salary guard runs first,
then the insert is attempted; the store raises on a duplicate email (unique
constraint, no service-level pre-check), otherwise the row is inserted with
the next id and both timestamps set to the current clock. -/
def create_employee (s : Store) (p : EmployeeCreate) (now : Nat) :
    Except ServiceError (Employee × Store) :=
  if createSalaryRejected p.salary then Except.error ServiceError.invalidSalary
  else if s.hasEmail p.email then Except.error ServiceError.duplicateEmail
  else
    let e : Employee :=
      ⟨s.nextId, p.name, p.email, p.department, p.salary, now, now⟩
    Except.ok (e, ⟨s.rows ++ [e], s.nextId + 1⟩)

/-- EmployeeService.get_employee: lookup by id, none when absent. -/
def get_employee (s : Store) (id : Nat) : Option Employee :=
  s.findById id

/-- EmployeeService.get_employees: all rows. -/
def get_employees (s : Store) : List Employee :=
  s.rows

/-- EmployeeService.update_employee: fetch first (none when the id is
absent, leaving the store untouched), then the service salary guard, then
the supplied fields are merged into the fetched row (absent fields keep
their prior values), updated_at is refreshed by the onupdate clause on
commit, and the commit enforces the unique email constraint against the
other rows. -/
def update_employee (s : Store) (id : Nat) (p : EmployeeUpdate) (now : Nat) :
    Except ServiceError (Option Employee × Store) :=
  match s.findById id with
  | none => Except.ok (none, s)
  | some e =>
    if updateSalaryRejected p.salary then Except.error ServiceError.invalidSalary
    else
      let merged : Employee :=
        { e with
          name := p.name.getD e.name
          email := p.email.getD e.email
          department := p.department.getD e.department
          salary := p.salary.getD e.salary
          updated_at := now }
      if s.rows.any (fun o => (o.id != e.id) && (o.email == merged.email)) then
        Except.error ServiceError.duplicateEmail
      else
        Except.ok (some merged,
          ⟨s.rows.map (fun o => if o.id == e.id then merged else o), s.nextId⟩)

/-- EmployeeService.delete_employee: fetch first (false when the id is
absent, leaving the store untouched), otherwise the fetched row, whose
primary key equals the queried id, is removed and true returned. -/
def delete_employee (s : Store) (id : Nat) : Bool × Store :=
  match s.findById id with
  | none => (false, s)
  | some _ => (true, ⟨s.rows.eraseP (fun o => o.id == id), s.nextId⟩)

/-- HTTP-level outcomes, from app/api/employee_api.py and the exception
handlers in app/utils/exceptions.py. -/
inductive ApiResponse
  | created (e : Employee)
  | okRecord (e : Employee)
  | okList (l : List Employee)
  | noContent
  | notFound
  | unprocessable (errs : List FieldError)
  | serverError (err : ServiceError)
deriving Repr, DecidableEq

/-- POST handler: the framework validates the body against EmployeeCreate
before the handler runs; a validation failure is answered 422 without any
store access, otherwise the service is called.  An unhandled service
exception surfaces as a generic failure. -/
def apiCreate (s : Store) (raw : RawEmployeeCreate) (now : Nat) :
    ApiResponse × Store :=
  match raw.name, raw.email, raw.department, raw.salary with
  | some n, some em, some d, some sal =>
    if validateCreate raw = [] then
      match create_employee s ⟨n, em, d, sal⟩ now with
      | Except.ok (e, s2) => (ApiResponse.created e, s2)
      | Except.error err => (ApiResponse.serverError err, s)
    else (ApiResponse.unprocessable (validateCreate raw), s)
  | _, _, _, _ => (ApiResponse.unprocessable (validateCreate raw), s)

/-- GET by id handler: 404 when the service returns none. -/
def apiGet (s : Store) (id : Nat) : ApiResponse × Store :=
  match get_employee s id with
  | some e => (ApiResponse.okRecord e, s)
  | none => (ApiResponse.notFound, s)

/-- PUT handler: the framework validates the body against EmployeeUpdate
before the handler runs; then the service is called and none maps to 404. -/
def apiUpdate (s : Store) (id : Nat) (p : EmployeeUpdate) (now : Nat) :
    ApiResponse × Store :=
  if validateUpdate p = [] then
    match update_employee s id p now with
    | Except.ok (some e, s2) => (ApiResponse.okRecord e, s2)
    | Except.ok (none, s2) => (ApiResponse.notFound, s2)
    | Except.error err => (ApiResponse.serverError err, s)
  else (ApiResponse.unprocessable (validateUpdate p), s)

/-- DELETE handler: 204 on success, 404 when the service returns false. -/
def apiDelete (s : Store) (id : Nat) : ApiResponse × Store :=
  match delete_employee s id with
  | (true, s2) => (ApiResponse.noContent, s2)
  | (false, s2) => (ApiResponse.notFound, s2)

/-- Primary-key uniqueness of the rows, guaranteed by the store. -/
def Store.idsUnique (s : Store) : Prop :=
  s.rows.Pairwise (fun a b => a.id ≠ b.id)

/-- Email uniqueness of the rows, the invariant maintained by the unique
constraint on the email column. -/
def Store.emailsUnique (s : Store) : Prop :=
  s.rows.Pairwise (fun a b => a.email ≠ b.email)

/-- One request against the service, for reasoning about sequences of
operations. -/
inductive Op
  | createOp (p : EmployeeCreate)
  | updateOp (i : Nat) (p : EmployeeUpdate)
  | deleteOp (i : Nat)
  | getOp (i : Nat)
deriving Repr

/-- Execute one operation against the store, returning the new store and the
id assigned by the store when the operation was a successful create. -/
def step (s : Store) (op : Op) (now : Nat) : Store × Option Nat :=
  match op with
  | Op.createOp p =>
    match create_employee s p now with
    | Except.ok (e, s2) => (s2, some e.id)
    | Except.error _ => (s, none)
  | Op.updateOp i p =>
    match update_employee s i p now with
    | Except.ok (_, s2) => (s2, none)
    | Except.error _ => (s, none)
  | Op.deleteOp i => ((delete_employee s i).2, none)
  | Op.getOp _ => (s, none)

/-- Execute a sequence of operations, each with its clock value, collecting
every id the store assigned along the way. -/
def run (s : Store) : List (Op × Nat) → Store × List Nat
  | [] => (s, [])
  | (op, now) :: rest =>
    let r1 := step s op now
    let r2 := run r1.1 rest
    (r2.1, r1.2.toList ++ r2.2)

/-- A sample employee row used by the concrete witnesses. -/
def johnDoe : Employee :=
  ⟨1, "John Doe", "john.doe@example.com", "Engineering", 75000, 0, 0⟩

/-- A sample store holding exactly the sample employee. -/
def demoStore : Store := ⟨[johnDoe], 2⟩

/-- A name of exactly 100 characters, the upper boundary. -/
def name100 : String := String.mk (List.replicate 100 'a')

/-- A name of 101 characters, just above the upper boundary. -/
def name101 : String := String.mk (List.replicate 101 'a')

/-- A department of exactly 50 characters, the upper boundary. -/
def dept50 : String := String.mk (List.replicate 50 'd')

/-- A create payload whose name and department sit exactly on the upper
length boundaries. -/
def boundaryRaw : RawEmployeeCreate := ⟨some name100, some ("a@b"), some dept50, some 1⟩

/-- A create payload whose name is one character too long. -/
def overlongRaw : RawEmployeeCreate := ⟨some name101, some ("a@b"), some dept50, some 1⟩

/-- An update payload supplying an empty name. -/
def emptyNameUpd : EmployeeUpdate := ⟨some (""), none, none, none⟩

lemma mem_checkNameVal (err : FieldError) (s : String) :
    err ∈ checkNameVal s ↔
      (err = FieldError.tooShort FieldName.name ∧ s.length < 1) ∨
      (err = FieldError.tooLong FieldName.name ∧ 100 < s.length) := by
  by_cases h1 : s.length < 1 <;> by_cases h2 : 100 < s.length <;>
    simp [checkNameVal, h1, h2]

lemma mem_checkEmailVal (err : FieldError) (s : String) :
    err ∈ checkEmailVal s ↔ err = FieldError.invalidEmail ∧ emailValid s = false := by
  by_cases h : emailValid s <;> simp [checkEmailVal, h]

lemma mem_checkDepartmentVal (err : FieldError) (s : String) :
    err ∈ checkDepartmentVal s ↔
      (err = FieldError.tooShort FieldName.department ∧ s.length < 1) ∨
      (err = FieldError.tooLong FieldName.department ∧ 50 < s.length) := by
  by_cases h1 : s.length < 1 <;> by_cases h2 : 50 < s.length <;>
    simp [checkDepartmentVal, h1, h2]

lemma mem_checkSalaryVal (err : FieldError) (v : ℚ) :
    err ∈ checkSalaryVal v ↔ err = FieldError.notGtZero ∧ ¬ 0 < v := by
  by_cases h : (0 : ℚ) < v <;> simp [checkSalaryVal, h]

lemma mem_checkRequired (f : FieldName) (check : α → List FieldError)
    (err : FieldError) (x : Option α) :
    err ∈ checkRequired f check x ↔
      (x = none ∧ err = FieldError.missing f) ∨ ∃ v, x = some v ∧ err ∈ check v := by
  cases x <;> simp [checkRequired]

lemma mem_checkOptional (check : α → List FieldError) (err : FieldError) (x : Option α) :
    err ∈ checkOptional check x ↔ ∃ v, x = some v ∧ err ∈ check v := by
  cases x <;> simp [checkOptional]

lemma mem_validateCreate (err : FieldError) (p : RawEmployeeCreate) :
    err ∈ validateCreate p ↔
      err ∈ checkRequired FieldName.name checkNameVal p.name ∨
      err ∈ checkRequired FieldName.email checkEmailVal p.email ∨
      err ∈ checkRequired FieldName.department checkDepartmentVal p.department ∨
      err ∈ checkRequired FieldName.salary checkSalaryVal p.salary := by
  simp [validateCreate, or_assoc]

lemma mem_validateUpdate (err : FieldError) (p : EmployeeUpdate) :
    err ∈ validateUpdate p ↔
      err ∈ checkOptional checkNameVal p.name ∨
      err ∈ checkOptional checkEmailVal p.email ∨
      err ∈ checkOptional checkDepartmentVal p.department ∨
      err ∈ checkOptional checkSalaryVal p.salary := by
  simp [validateUpdate, or_assoc]

lemma apiCreate_invalid (s : Store) (p : RawEmployeeCreate) (now : Nat)
    (h : validateCreate p ≠ []) :
    apiCreate s p now = (ApiResponse.unprocessable (validateCreate p), s) := by
  rcases p with ⟨n, e, d, v⟩
  cases n <;> cases e <;> cases d <;> cases v <;> simp_all [apiCreate]

lemma apiUpdate_invalid (s : Store) (id : Nat) (p : EmployeeUpdate) (now : Nat)
    (h : validateUpdate p ≠ []) :
    apiUpdate s id p now = (ApiResponse.unprocessable (validateUpdate p), s) := by
  simp [apiUpdate, h]

/-- C1: on both create and update payloads, a supplied salary that is zero or negative always produces the salary validation error and the request is answered 422 with the store untouched, while a strictly positive salary never produces the salary error. -/
theorem C1_salary_validation (s : Store) (raw : RawEmployeeCreate)
    (p : EmployeeUpdate) (id now : Nat) (v : ℚ) :
    (raw.salary = some v → v ≤ 0 →
      FieldError.notGtZero ∈ validateCreate raw ∧
      apiCreate s raw now = (ApiResponse.unprocessable (validateCreate raw), s)) ∧
    (p.salary = some v → v ≤ 0 →
      FieldError.notGtZero ∈ validateUpdate p ∧
      apiUpdate s id p now = (ApiResponse.unprocessable (validateUpdate p), s)) ∧
    (raw.salary = some v → 0 < v → FieldError.notGtZero ∉ validateCreate raw) ∧
    (p.salary = some v → 0 < v → FieldError.notGtZero ∉ validateUpdate p) := by
  refine ⟨fun hs hle => ?_, fun hs hle => ?_, fun hs hpos => ?_, fun hs hpos => ?_⟩
  · have hmem : FieldError.notGtZero ∈ validateCreate raw := by
      rw [mem_validateCreate]
      right; right; right
      rw [mem_checkRequired]
      exact Or.inr ⟨v, hs, (mem_checkSalaryVal _ _).mpr ⟨rfl, not_lt.mpr hle⟩⟩
    exact ⟨hmem, apiCreate_invalid _ _ _ (List.ne_nil_of_mem hmem)⟩
  · have hmem : FieldError.notGtZero ∈ validateUpdate p := by
      rw [mem_validateUpdate]
      right; right; right
      rw [mem_checkOptional]
      exact ⟨v, hs, (mem_checkSalaryVal _ _).mpr ⟨rfl, not_lt.mpr hle⟩⟩
    exact ⟨hmem, apiUpdate_invalid _ _ _ _ (List.ne_nil_of_mem hmem)⟩
  · intro hmem
    rw [mem_validateCreate] at hmem
    rcases hmem with h | h | h | h <;>
      simp [mem_checkRequired, mem_checkNameVal, mem_checkEmailVal,
        mem_checkDepartmentVal, mem_checkSalaryVal, hs] at h
    exact absurd hpos (not_lt.mpr h)
  · intro hmem
    rw [mem_validateUpdate] at hmem
    rcases hmem with h | h | h | h <;>
      simp [mem_checkOptional, mem_checkNameVal, mem_checkEmailVal,
        mem_checkDepartmentVal, mem_checkSalaryVal, hs] at h
    exact absurd hpos (not_lt.mpr h)

lemma checkNameVal_eq_nil (s : String) :
    checkNameVal s = [] ↔ 1 ≤ s.length ∧ s.length ≤ 100 := by
  by_cases h1 : s.length < 1 <;> by_cases h2 : 100 < s.length <;>
    simp [checkNameVal, h1, h2] <;> omega

lemma checkEmailVal_eq_nil (s : String) :
    checkEmailVal s = [] ↔ emailValid s = true := by
  by_cases h : emailValid s <;> simp [checkEmailVal, h]

lemma checkDepartmentVal_eq_nil (s : String) :
    checkDepartmentVal s = [] ↔ 1 ≤ s.length ∧ s.length ≤ 50 := by
  by_cases h1 : s.length < 1 <;> by_cases h2 : 50 < s.length <;>
    simp [checkDepartmentVal, h1, h2] <;> omega

lemma checkSalaryVal_eq_nil (v : ℚ) :
    checkSalaryVal v = [] ↔ 0 < v := by
  by_cases h : (0 : ℚ) < v <;> simp [checkSalaryVal, h]

lemma checkRequired_eq_nil (f : FieldName) (check : α → List FieldError) (x : Option α) :
    checkRequired f check x = [] ↔ ∃ v, x = some v ∧ check v = [] := by
  cases x <;> simp [checkRequired]

lemma checkOptional_eq_nil (check : α → List FieldError) (x : Option α) :
    checkOptional check x = [] ↔ ∀ v, x = some v → check v = [] := by
  cases x <;> simp [checkOptional]

/-- C6: a supplied name is flagged by a length error exactly when its character count lies outside the inclusive range 1 to 100, and a supplied department exactly when outside 1 to 50, on create and update alike; an out-of-range value always makes validation of the payload fail, and boundary lengths produce no length error. -/
theorem C6_length_bounds (raw : RawEmployeeCreate) (p : EmployeeUpdate) :
    (∀ nm, raw.name = some nm →
      ((FieldError.tooShort FieldName.name ∈ validateCreate raw ∨
        FieldError.tooLong FieldName.name ∈ validateCreate raw) ↔
        ¬(1 ≤ nm.length ∧ nm.length ≤ 100))) ∧
    (∀ d, raw.department = some d →
      ((FieldError.tooShort FieldName.department ∈ validateCreate raw ∨
        FieldError.tooLong FieldName.department ∈ validateCreate raw) ↔
        ¬(1 ≤ d.length ∧ d.length ≤ 50))) ∧
    (∀ nm, p.name = some nm →
      ((FieldError.tooShort FieldName.name ∈ validateUpdate p ∨
        FieldError.tooLong FieldName.name ∈ validateUpdate p) ↔
        ¬(1 ≤ nm.length ∧ nm.length ≤ 100))) ∧
    (∀ d, p.department = some d →
      ((FieldError.tooShort FieldName.department ∈ validateUpdate p ∨
        FieldError.tooLong FieldName.department ∈ validateUpdate p) ↔
        ¬(1 ≤ d.length ∧ d.length ≤ 50))) ∧
    (∀ nm, raw.name = some nm → ¬(1 ≤ nm.length ∧ nm.length ≤ 100) →
      validateCreate raw ≠ []) ∧
    (∀ d, raw.department = some d → ¬(1 ≤ d.length ∧ d.length ≤ 50) →
      validateCreate raw ≠ []) ∧
    (∀ nm, p.name = some nm → ¬(1 ≤ nm.length ∧ nm.length ≤ 100) →
      validateUpdate p ≠ []) ∧
    (∀ d, p.department = some d → ¬(1 ≤ d.length ∧ d.length ≤ 50) →
      validateUpdate p ≠ []) := by
  refine ⟨fun nm hs => ?_, fun d hs => ?_, fun nm hs => ?_, fun d hs => ?_,
    fun nm hs hout => ?_, fun d hs hout => ?_, fun nm hs hout => ?_, fun d hs hout => ?_⟩
  · simp [mem_validateCreate, mem_checkRequired, mem_checkNameVal, mem_checkEmailVal,
      mem_checkDepartmentVal, mem_checkSalaryVal, hs]
    omega
  · simp [mem_validateCreate, mem_checkRequired, mem_checkNameVal, mem_checkEmailVal,
      mem_checkDepartmentVal, mem_checkSalaryVal, hs]
    omega
  · simp [mem_validateUpdate, mem_checkOptional, mem_checkNameVal, mem_checkEmailVal,
      mem_checkDepartmentVal, mem_checkSalaryVal, hs]
    omega
  · simp [mem_validateUpdate, mem_checkOptional, mem_checkNameVal, mem_checkEmailVal,
      mem_checkDepartmentVal, mem_checkSalaryVal, hs]
    omega
  · have hmem : FieldError.tooShort FieldName.name ∈ validateCreate raw ∨
        FieldError.tooLong FieldName.name ∈ validateCreate raw := by
      simp [mem_validateCreate, mem_checkRequired, mem_checkNameVal, mem_checkEmailVal,
        mem_checkDepartmentVal, mem_checkSalaryVal, hs]
      omega
    rcases hmem with h | h <;> exact List.ne_nil_of_mem h
  · have hmem : FieldError.tooShort FieldName.department ∈ validateCreate raw ∨
        FieldError.tooLong FieldName.department ∈ validateCreate raw := by
      simp [mem_validateCreate, mem_checkRequired, mem_checkNameVal, mem_checkEmailVal,
        mem_checkDepartmentVal, mem_checkSalaryVal, hs]
      omega
    rcases hmem with h | h <;> exact List.ne_nil_of_mem h
  · have hmem : FieldError.tooShort FieldName.name ∈ validateUpdate p ∨
        FieldError.tooLong FieldName.name ∈ validateUpdate p := by
      simp [mem_validateUpdate, mem_checkOptional, mem_checkNameVal, mem_checkEmailVal,
        mem_checkDepartmentVal, mem_checkSalaryVal, hs]
      omega
    rcases hmem with h | h <;> exact List.ne_nil_of_mem h
  · have hmem : FieldError.tooShort FieldName.department ∈ validateUpdate p ∨
        FieldError.tooLong FieldName.department ∈ validateUpdate p := by
      simp [mem_validateUpdate, mem_checkOptional, mem_checkNameVal, mem_checkEmailVal,
        mem_checkDepartmentVal, mem_checkSalaryVal, hs]
      omega
    rcases hmem with h | h <;> exact List.ne_nil_of_mem h

/-- C7: on a create payload all four business fields are required, each absent field is reported missing, each supplied field is checked against its own constraint independently of the others so that several violations are all reported together, and validation succeeds exactly when every field is present and satisfies its constraint. -/
theorem C7_create_all_fields_checked (raw : RawEmployeeCreate) :
    (raw.name = none → FieldError.missing FieldName.name ∈ validateCreate raw) ∧
    (raw.email = none → FieldError.missing FieldName.email ∈ validateCreate raw) ∧
    (raw.department = none → FieldError.missing FieldName.department ∈ validateCreate raw) ∧
    (raw.salary = none → FieldError.missing FieldName.salary ∈ validateCreate raw) ∧
    (∀ em, raw.email = some em → emailValid em = false →
      FieldError.invalidEmail ∈ validateCreate raw) ∧
    (validateCreate raw = [] ↔
      (∃ nm, raw.name = some nm ∧ 1 ≤ nm.length ∧ nm.length ≤ 100) ∧
      (∃ em, raw.email = some em ∧ emailValid em = true) ∧
      (∃ d, raw.department = some d ∧ 1 ≤ d.length ∧ d.length ≤ 50) ∧
      (∃ v, raw.salary = some v ∧ 0 < v)) := by
  refine ⟨fun h => ?_, fun h => ?_, fun h => ?_, fun h => ?_, fun em hs hbad => ?_, ?_⟩
  · simp [mem_validateCreate, mem_checkRequired, h]
  · simp [mem_validateCreate, mem_checkRequired, h]
  · simp [mem_validateCreate, mem_checkRequired, h]
  · simp [mem_validateCreate, mem_checkRequired, h]
  · simp [mem_validateCreate, mem_checkRequired, mem_checkEmailVal, hs, hbad]
  · simp [validateCreate, List.append_eq_nil, checkRequired_eq_nil,
      checkNameVal_eq_nil, checkEmailVal_eq_nil, checkDepartmentVal_eq_nil,
      checkSalaryVal_eq_nil, and_assoc]

lemma validateCreate_eq_nil (p : RawEmployeeCreate) :
    validateCreate p = [] ↔
      (∃ nm, p.name = some nm ∧ 1 ≤ nm.length ∧ nm.length ≤ 100) ∧
      (∃ em, p.email = some em ∧ emailValid em = true) ∧
      (∃ d, p.department = some d ∧ 1 ≤ d.length ∧ d.length ≤ 50) ∧
      (∃ v, p.salary = some v ∧ 0 < v) := by
  simp [validateCreate, List.append_eq_nil, checkRequired_eq_nil,
    checkNameVal_eq_nil, checkEmailVal_eq_nil, checkDepartmentVal_eq_nil,
    checkSalaryVal_eq_nil, and_assoc]

lemma validateUpdate_eq_nil (p : EmployeeUpdate) :
    validateUpdate p = [] ↔
      (∀ nm, p.name = some nm → 1 ≤ nm.length ∧ nm.length ≤ 100) ∧
      (∀ em, p.email = some em → emailValid em = true) ∧
      (∀ d, p.department = some d → 1 ≤ d.length ∧ d.length ≤ 50) ∧
      (∀ v, p.salary = some v → 0 < v) := by
  simp [validateUpdate, List.append_eq_nil, checkOptional_eq_nil,
    checkNameVal_eq_nil, checkEmailVal_eq_nil, checkDepartmentVal_eq_nil,
    checkSalaryVal_eq_nil]

/-- C3: when the id is absent from the store, update and delete both report not-found and leave the store unchanged, and the handlers answer 404; when the id is present, neither operation reports not-found. -/
theorem C3_missing_id_not_found (s : Store) (id now : Nat) (u : EmployeeUpdate) :
    (get_employee s id = none →
      update_employee s id u now = Except.ok (none, s) ∧
      delete_employee s id = (false, s) ∧
      (validateUpdate u = [] → apiUpdate s id u now = (ApiResponse.notFound, s)) ∧
      apiDelete s id = (ApiResponse.notFound, s)) ∧
    (∀ e, get_employee s id = some e →
      (∀ s2, update_employee s id u now ≠ Except.ok (none, s2)) ∧
      (delete_employee s id).1 = true) := by
  constructor
  · intro h
    rw [get_employee] at h
    refine ⟨?_, ?_, ?_, ?_⟩
    · simp [update_employee, h]
    · simp [delete_employee, h]
    · intro hval
      simp [apiUpdate, hval, update_employee, h]
    · simp [apiDelete, delete_employee, h]
  · intro e h
    rw [get_employee] at h
    constructor
    · intro s2
      simp only [update_employee, h]
      split_ifs <;> simp
    · simp [delete_employee, h]

/-- C8: a created record carries created_at and updated_at equal to the creation clock, and a successful update keeps created_at of the stored record while setting updated_at to the current clock. -/
theorem C8_timestamps (s : Store) (now : Nat) :
    (∀ (p : EmployeeCreate) (e : Employee) (s2 : Store),
      create_employee s p now = Except.ok (e, s2) →
      e.created_at = now ∧ e.updated_at = now) ∧
    (∀ (id : Nat) (u : EmployeeUpdate) (e0 e : Employee) (s2 : Store),
      get_employee s id = some e0 →
      update_employee s id u now = Except.ok (some e, s2) →
      e.created_at = e0.created_at ∧ e.updated_at = now) := by
  constructor
  · intro p e s2 h
    rw [create_employee] at h
    split_ifs at h <;> simp at h
    rcases h with ⟨he, _⟩
    subst he
    exact ⟨rfl, rfl⟩
  · intro id u e0 e s2 h0 h
    rw [get_employee] at h0
    simp only [update_employee, h0] at h
    split_ifs at h <;> simp at h
    rcases h with ⟨he, _⟩
    subst he
    exact ⟨rfl, rfl⟩

/-- C10: behind schema validation the service-level salary ValueError branches are unreachable on create and update, and taken on its own the service guard accepts a salary of exactly zero, on create because the check is guarded by the truthiness of the value and on update because only values strictly below zero are rejected. -/
theorem C10_service_salary_guard (s : Store) (raw : RawEmployeeCreate) (u : EmployeeUpdate)
    (id now : Nat) :
    ((apiCreate s raw now).1 ≠ ApiResponse.serverError ServiceError.invalidSalary) ∧
    ((apiUpdate s id u now).1 ≠ ApiResponse.serverError ServiceError.invalidSalary) ∧
    createSalaryRejected 0 = false ∧
    updateSalaryRejected (some 0) = false := by
  refine ⟨?_, ?_, by decide, by decide⟩
  · rcases raw with ⟨n, em, d, v⟩
    cases n <;> cases em <;> cases d <;> cases v <;> simp only [apiCreate] <;>
      try simp
    case some.some.some.some n em d v =>
      by_cases hval : validateCreate ⟨some n, some em, some d, some v⟩ = []
      · rcases (validateCreate_eq_nil _).mp hval with ⟨_, _, _, ⟨v2, hv2, hpos⟩⟩
        simp only [Option.some.injEq] at hv2
        have hrej : createSalaryRejected v = false := by
          rw [createSalaryRejected]
          simp [hv2 ▸ hpos, not_lt.mpr (le_of_lt (hv2 ▸ hpos))]
        simp only [hval, if_true, create_employee, hrej]
        split_ifs <;> simp_all
      · simp [hval]
  · by_cases hval : validateUpdate u = []
    · simp only [apiUpdate, hval, if_true]
      rcases hfind : Store.findById s id with _ | e
      · simp [update_employee, hfind]
      · have hrej : updateSalaryRejected u.salary = false := by
          rcases hsal : u.salary with _ | v
          · rfl
          · have hpos := ((validateUpdate_eq_nil u).mp hval).2.2.2 v hsal
            simp [updateSalaryRejected, not_lt.mpr (le_of_lt hpos)]
        simp only [update_employee, hfind, hrej]
        split_ifs <;> simp_all
    · simp [apiUpdate, hval]

/-- C4: when the store already holds the requested email, create never persists a second record: the handler leaves the store unchanged, and once the service salary guard passes, the failure is the duplicate-email error surfaced by the store on the insert attempt, the service itself having made no duplicate pre-check. -/
theorem C4_duplicate_email_create_fails (s : Store) (raw : RawEmployeeCreate) (em : String) (now : Nat)
    (hem : raw.email = some em) (hdup : s.hasEmail em = true) :
    (apiCreate s raw now).2 = s ∧
    (∀ p : EmployeeCreate, p.email = em → createSalaryRejected p.salary = false →
      create_employee s p now = Except.error ServiceError.duplicateEmail) := by
  constructor
  · rcases raw with ⟨n, em2, d, v⟩
    simp only at hem
    subst hem
    cases n <;> cases d <;> cases v <;> simp only [apiCreate] <;> try rfl
    case some.some.some n d v =>
      by_cases hval : validateCreate ⟨some n, some em, some d, some v⟩ = []
      · simp only [hval, if_true, create_employee, hdup]
        split_ifs <;> simp
      · simp [hval]
  · intro p hpe hrej
    rw [create_employee, hrej]
    simp [hpe, hdup]

lemma find_eraseP_eq_none (l : List Employee) (i : Nat)
    (h : l.Pairwise (fun a b => a.id ≠ b.id)) :
    (l.eraseP (fun o => o.id == i)).find? (fun o => o.id == i) = none := by
  induction l with
  | nil => rfl
  | cons a t ih =>
    rcases List.pairwise_cons.mp h with ⟨ha, ht⟩
    by_cases hid : a.id = i
    · rw [List.eraseP_cons_of_pos (by simp [hid])]
      rw [List.find?_eq_none]
      intro x hx
      simp only [beq_iff_eq]
      intro hxi
      exact (ha x hx) (by rw [hid, hxi])
    · rw [List.eraseP_cons_of_neg (by simp [hid])]
      rw [List.find?_cons_of_neg _ (by simp [hid])]
      exact ih ht

/-- C5: deleting an id and then getting the same id always answers not-found, whether or not the delete itself succeeded. -/
theorem C5_delete_then_get_not_found (s : Store) (i : Nat) (h : Store.idsUnique s) :
    (apiGet (apiDelete s i).2 i).1 = ApiResponse.notFound := by
  rcases hfind : s.findById i with _ | e
  · rw [apiDelete, delete_employee, hfind]
    simp [apiGet, get_employee, hfind]
  · rw [apiDelete, delete_employee, hfind]
    rw [apiGet, get_employee]
    simp only [Store.findById]
    rw [find_eraseP_eq_none _ _ h]

lemma eq_of_same_email (l : List Employee)
    (hu : l.Pairwise (fun a b => a.email ≠ b.email))
    {e o : Employee} (he : e ∈ l) (ho : o ∈ l) (hmail : o.email = e.email) :
    o = e := by
  induction l with
  | nil => cases he
  | cons a t ih =>
    rcases List.pairwise_cons.mp hu with ⟨ha, ht⟩
    rcases List.mem_cons.mp he with rfl | he2
    · rcases List.mem_cons.mp ho with rfl | ho2
      · rfl
      · exact absurd hmail.symm (ha o ho2)
    · rcases List.mem_cons.mp ho with rfl | ho2
      · exact absurd hmail (ha e he2)
      · exact ih ht he2 ho2

lemma no_other_email (l : List Employee) (e : Employee)
    (hu : l.Pairwise (fun a b => a.email ≠ b.email)) (he : e ∈ l) :
    l.any (fun o => (o.id != e.id) && (o.email == e.email)) = false := by
  rw [List.any_eq_false]
  intro o ho
  simp only [Bool.and_eq_true, bne_iff_ne, beq_iff_eq, not_and]
  intro hne hmail
  exact hne (congrArg Employee.id (eq_of_same_email l hu he ho hmail))

lemma find_map_replace (l : List Employee) (i : Nat) (e e2 : Employee)
    (hfind : l.find? (fun o => o.id == i) = some e) (hid : e2.id = e.id) :
    (l.map (fun o => if o.id == e.id then e2 else o)).find? (fun o => o.id == i)
      = some e2 := by
  have hei : e.id = i := by
    have := List.find?_some hfind
    simpa using this
  induction l with
  | nil => simp at hfind
  | cons a t ih =>
    by_cases ha : a.id = i
    · rw [List.find?_cons_of_pos _ (by simp [ha])] at hfind
      injection hfind with hae
      subst hae
      rw [List.map_cons, if_pos (by simp)]
      rw [List.find?_cons_of_pos _ (by simp [hid, hei])]
    · rw [List.find?_cons_of_neg _ (by simp [ha])] at hfind
      rw [List.map_cons]
      have hane : ¬ a.id = e.id := by rw [hei]; exact ha
      rw [if_neg (by simp [hane])]
      rw [List.find?_cons_of_neg _ (by simp [ha])]
      exact ih hfind

lemma mem_map_replace_of_ne (l : List Employee) (e e2 o : Employee)
    (ho : o ∈ l) (hne : o.id ≠ e.id) :
    o ∈ l.map (fun x => if x.id = e.id then e2 else x) :=
  List.mem_map.mpr ⟨o, ho, by simp [hne]⟩

/-- C2: for an existing employee id, a successful update merges exactly the supplied fields into the stored record and absent fields keep their prior values; in particular an update supplying only the salary succeeds, changes only the salary (and the updated_at timestamp), keeps name, email and department, and stores the merged record under the same id, with all other rows preserved. -/
theorem C2_partial_update_merge (s : Store) (i now : Nat) (u : EmployeeUpdate) (e : Employee)
    (hget : get_employee s i = some e) :
    (∀ e2 s2, update_employee s i u now = Except.ok (some e2, s2) →
      e2.id = e.id ∧
      e2.name = u.name.getD e.name ∧
      e2.email = u.email.getD e.email ∧
      e2.department = u.department.getD e.department ∧
      e2.salary = u.salary.getD e.salary ∧
      e2.created_at = e.created_at ∧ e2.updated_at = now ∧
      (∀ o ∈ s.rows, o.id ≠ e.id → o ∈ s2.rows)) ∧
    (∀ v : ℚ, u.name = none → u.email = none → u.department = none →
      u.salary = some v → ¬ v < 0 → Store.emailsUnique s →
      ∃ e2 s2, update_employee s i u now = Except.ok (some e2, s2) ∧
        e2.salary = v ∧ e2.name = e.name ∧ e2.email = e.email ∧
        e2.department = e.department ∧ e2.created_at = e.created_at ∧
        e2.updated_at = now ∧ Store.findById s2 i = some e2) := by
  rw [get_employee] at hget
  constructor
  · intro e2 s2 h
    simp only [update_employee, hget] at h
    split_ifs at h <;> simp at h
    rcases h with ⟨he2, hs2⟩
    subst he2
    subst hs2
    refine ⟨rfl, rfl, rfl, rfl, rfl, rfl, rfl, ?_⟩
    intro o ho hne
    exact mem_map_replace_of_ne _ _ _ _ ho hne
  · intro v hn he hd hs hneg hu
    have hrej : updateSalaryRejected (some v) = false := by
      simp [updateSalaryRejected, hneg]
    have hmem : e ∈ s.rows := List.mem_of_find?_eq_some hget
    have hany := no_other_email s.rows e hu hmem
    simp only [update_employee, hget, hn, he, hd, hs, Option.getD_some,
      Option.getD_none, hrej, Bool.false_eq_true, if_false, hany]
    refine ⟨_, _, rfl, rfl, rfl, rfl, rfl, rfl, rfl, ?_⟩
    rw [Store.findById]
    exact find_map_replace s.rows i e _ hget rfl

lemma create_ok_shape {s : Store} {p : EmployeeCreate} {now : Nat}
    {e : Employee} {s2 : Store}
    (h : create_employee s p now = Except.ok (e, s2)) :
    e.id = s.nextId ∧ s2.nextId = s.nextId + 1 := by
  rw [create_employee] at h
  split_ifs at h <;> simp at h
  rcases h with ⟨he, hs⟩
  subst he
  subst hs
  exact ⟨rfl, rfl⟩

lemma update_nextId {s : Store} {i : Nat} {p : EmployeeUpdate} {now : Nat}
    {r : Option Employee} {s2 : Store}
    (h : update_employee s i p now = Except.ok (r, s2)) :
    s2.nextId = s.nextId := by
  rcases hfind : s.findById i with _ | e
  · simp only [update_employee, hfind] at h
    simp at h
    rw [← h.2]
  · simp only [update_employee, hfind] at h
    split_ifs at h <;> simp at h
    rw [← h.2]

lemma delete_nextId (s : Store) (i : Nat) :
    (delete_employee s i).2.nextId = s.nextId := by
  rw [delete_employee]
  rcases hfind : s.findById i with _ | e <;> simp

lemma step_nextId (s : Store) (op : Op) (now : Nat) :
    s.nextId ≤ (step s op now).1.nextId ∧
    (∀ i, (step s op now).2 = some i →
      i = s.nextId ∧ s.nextId < (step s op now).1.nextId) := by
  cases op with
  | createOp p =>
    rcases h : create_employee s p now with err | ⟨e, s2⟩
    · simp [step, h]
    · rcases create_ok_shape h with ⟨he, hs⟩
      simp [step, h, he, hs]
  | updateOp i p =>
    rcases h : update_employee s i p now with err | ⟨r, s2⟩
    · simp [step, h]
    · simp [step, h, update_nextId h]
  | deleteOp i => simp [step, delete_nextId]
  | getOp i => simp [step]

lemma run_ids (ops : List (Op × Nat)) (s : Store) :
    (∀ i ∈ (run s ops).2, s.nextId ≤ i) ∧
    (run s ops).2.Pairwise (fun a b => a < b) ∧
    s.nextId ≤ (run s ops).1.nextId := by
  induction ops generalizing s with
  | nil => simp [run]
  | cons hd rest ih =>
    rcases hd with ⟨op, now⟩
    rcases hstep : step s op now with ⟨s1, a⟩
    have hmono := (step_nextId s op now).1
    have hassigned := (step_nextId s op now).2
    rw [hstep] at hmono hassigned
    rcases ih s1 with ⟨ihlb, ihpw, ihnext⟩
    have hrun : run s ((op, now) :: rest) =
        ((run s1 rest).1, a.toList ++ (run s1 rest).2) := by
      simp [run, hstep]
    rw [hrun]
    rcases a with _ | j
    · simp only [Option.toList_none, List.nil_append]
      exact ⟨fun i hi => le_trans hmono (ihlb i hi), ihpw,
        le_trans hmono ihnext⟩
    · rcases hassigned j rfl with ⟨hj, hlt⟩
      simp only [Option.toList_some, List.singleton_append]
      refine ⟨?_, ?_, le_trans hmono ihnext⟩
      · intro i hi
        rcases List.mem_cons.mp hi with rfl | hi2
        · exact le_of_eq hj.symm
        · exact le_trans hmono (ihlb i hi2)
      · rw [List.pairwise_cons]
        refine ⟨fun b hb => ?_, ihpw⟩
        calc j = s.nextId := hj
          _ < s1.nextId := hlt
          _ ≤ b := ihlb b hb

/-- C9: over any sequence of operations from any store state, the ids assigned by successful creates are strictly increasing, hence each newly assigned id differs from every id assigned earlier, including ids of records deleted in the meantime. -/
theorem C9_ids_never_reused (ops : List (Op × Nat)) (s : Store) :
    (run s ops).2.Pairwise (fun a b => a < b) ∧
    (run s ops).2.Pairwise (fun a b => a ≠ b) := by
  have h := run_ids ops s
  exact ⟨h.2.1, h.2.1.imp Nat.ne_of_lt⟩

theorem C1_salary_validation_witness :
    FieldError.notGtZero ∈ validateCreate ⟨some ("Jo"), some ("a@b"), some ("Eng"), some 0⟩ ∧
    FieldError.notGtZero ∉ validateUpdate ⟨none, none, none, some 1⟩ := by
  constructor
  · exact ((C1_salary_validation Store.empty ⟨some ("Jo"), some ("a@b"), some ("Eng"), some 0⟩
      ⟨none, none, none, some 1⟩ 0 0 0).1 rfl (by norm_num)).1
  · exact (C1_salary_validation Store.empty ⟨some ("Jo"), some ("a@b"), some ("Eng"), some 0⟩
      ⟨none, none, none, some 1⟩ 0 0 1).2.2.2 rfl (by norm_num)

theorem C2_partial_update_merge_witness :
    ∃ e2 s2,
      update_employee demoStore 1 ⟨none, none, none, some 80000⟩ 5 =
        Except.ok (some e2, s2) ∧
      e2.salary = 80000 ∧ e2.name = johnDoe.name ∧ e2.email = johnDoe.email ∧
      e2.department = johnDoe.department ∧ e2.created_at = johnDoe.created_at ∧
      e2.updated_at = 5 ∧ Store.findById s2 1 = some e2 :=
  (C2_partial_update_merge demoStore 1 5 ⟨none, none, none, some 80000⟩ johnDoe rfl).2
    80000 rfl rfl rfl rfl (by norm_num) (by simp [Store.emailsUnique, demoStore])

theorem C3_missing_id_not_found_witness :
    update_employee demoStore 99 ⟨none, none, none, none⟩ 7 = Except.ok (none, demoStore) ∧
    delete_employee demoStore 99 = (false, demoStore) ∧
    apiDelete demoStore 99 = (ApiResponse.notFound, demoStore) ∧
    (delete_employee demoStore 1).1 = true := by
  have ha := (C3_missing_id_not_found demoStore 99 7 ⟨none, none, none, none⟩).1 rfl
  have hb := ((C3_missing_id_not_found demoStore 1 7 ⟨none, none, none, none⟩).2 johnDoe rfl).2
  exact ⟨ha.1, ha.2.1, ha.2.2.2, hb⟩

theorem C4_duplicate_email_create_fails_witness :
    create_employee demoStore ⟨"Jane Roe", "john.doe@example.com", "Sales", 50000⟩ 9 =
      Except.error ServiceError.duplicateEmail :=
  (C4_duplicate_email_create_fails demoStore
    ⟨some ("Jane Roe"), some ("john.doe@example.com"), some ("Sales"), some 50000⟩
    "john.doe@example.com" 9 rfl rfl).2
    ⟨"Jane Roe", "john.doe@example.com", "Sales", 50000⟩ rfl (by decide)

theorem C5_delete_then_get_not_found_witness :
    (apiGet (apiDelete demoStore 1).2 1).1 = ApiResponse.notFound :=
  C5_delete_then_get_not_found demoStore 1 (by simp [Store.idsUnique, demoStore])

theorem C6_length_bounds_witness :
    (¬ (FieldError.tooShort FieldName.name ∈ validateCreate boundaryRaw ∨
        FieldError.tooLong FieldName.name ∈ validateCreate boundaryRaw)) ∧
    (¬ (FieldError.tooShort FieldName.department ∈ validateCreate boundaryRaw ∨
        FieldError.tooLong FieldName.department ∈ validateCreate boundaryRaw)) ∧
    validateCreate overlongRaw ≠ [] ∧
    validateUpdate emptyNameUpd ≠ [] := by
  refine ⟨fun h => ?_, fun h => ?_, ?_, ?_⟩
  · exact ((C6_length_bounds boundaryRaw emptyNameUpd).1 name100 rfl).mp h (by decide)
  · exact ((C6_length_bounds boundaryRaw emptyNameUpd).2.1 dept50 rfl).mp h (by decide)
  · exact (C6_length_bounds overlongRaw emptyNameUpd).2.2.2.2.1 name101 rfl (by decide)
  · exact (C6_length_bounds overlongRaw emptyNameUpd).2.2.2.2.2.2.1 ("") rfl (by decide)

theorem C7_create_all_fields_checked_witness :
    FieldError.missing FieldName.name ∈ validateCreate ⟨none, none, none, none⟩ ∧
    FieldError.missing FieldName.salary ∈ validateCreate ⟨none, none, none, none⟩ ∧
    FieldError.invalidEmail ∈
      validateCreate ⟨some ("Ann"), some ("nope"), some ("Ops"), some 1⟩ ∧
    validateCreate ⟨some ("Ann"), some ("a@b"), some ("Ops"), some 1⟩ = [] := by
  refine ⟨?_, ?_, ?_, ?_⟩
  · exact (C7_create_all_fields_checked ⟨none, none, none, none⟩).1 rfl
  · exact (C7_create_all_fields_checked ⟨none, none, none, none⟩).2.2.2.1 rfl
  · exact (C7_create_all_fields_checked ⟨some ("Ann"), some ("nope"), some ("Ops"), some 1⟩).2.2.2.2.1
      ("nope") rfl (by decide)
  · exact (C7_create_all_fields_checked ⟨some ("Ann"), some ("a@b"), some ("Ops"), some 1⟩).2.2.2.2.2.mpr
      ⟨⟨"Ann", rfl, by decide⟩, ⟨"a@b", rfl, by decide⟩, ⟨"Ops", rfl, by decide⟩,
        ⟨1, rfl, by norm_num⟩⟩

theorem C8_timestamps_witness :
    (∃ e s2,
      create_employee Store.empty ⟨"Ann", "a@b", "Ops", 10⟩ 3 = Except.ok (e, s2) ∧
      e.created_at = 3 ∧ e.updated_at = 3) ∧
    (∃ e s2,
      update_employee demoStore 1 ⟨none, none, none, some 80000⟩ 7 =
        Except.ok (some e, s2) ∧
      e.created_at = johnDoe.created_at ∧ e.updated_at = 7) := by
  constructor
  · have heq : create_employee Store.empty ⟨"Ann", "a@b", "Ops", 10⟩ 3 =
        Except.ok (⟨1, "Ann", "a@b", "Ops", 10, 3, 3⟩,
          ⟨[⟨1, "Ann", "a@b", "Ops", 10, 3, 3⟩], 2⟩) := by rfl
    exact ⟨_, _, heq, (C8_timestamps Store.empty 3).1 _ _ _ heq⟩
  · have heq : update_employee demoStore 1 ⟨none, none, none, some 80000⟩ 7 =
        Except.ok (some ⟨1, "John Doe", "john.doe@example.com", "Engineering", 80000, 0, 7⟩,
          ⟨[⟨1, "John Doe", "john.doe@example.com", "Engineering", 80000, 0, 7⟩], 2⟩) := by
      rfl
    exact ⟨_, _, heq, (C8_timestamps demoStore 7).2 1 _ johnDoe _ _ rfl heq⟩

theorem C10_service_salary_guard_witness :
    (apiCreate Store.empty ⟨some ("Zed"), some ("z@q"), some ("Ops"), some (-5)⟩ 2).1 ≠
      ApiResponse.serverError ServiceError.invalidSalary ∧
    createSalaryRejected 0 = false ∧ updateSalaryRejected (some 0) = false := by
  have h := C10_service_salary_guard Store.empty ⟨some ("Zed"), some ("z@q"), some ("Ops"), some (-5)⟩
    ⟨none, none, none, none⟩ 0 2
  exact ⟨h.1, h.2.2.1, h.2.2.2⟩

end EmployeeApp
